import Mathlib

/-
Verification of the telia-lang front end: the chained symbol table
(package scope, src/unnamed/part_000), the recursive-descent /
precedence-climbing parser (package parser, src/unnamed/part_001), and the
module-tree builder (ParseModuleDir and friends, same file).

Go state is embedded by explicit state passing: the token stream, the
diagnostics collector and the module scope are threaded through every
parsing function; Go's `(T, error)` returns become `Except GoErr T`.
Recursion that Go expresses as loops or unbounded mutual recursion is made
structural with an explicit fuel parameter; running out of fuel yields the
artificial error `GoErr.fuelOut`, which no Go execution produces and which
never occurs on the concrete inputs evaluated below.
-/

set_option maxRecDepth 20000

namespace Telia

/-- Source position carried by every token (token.Pos in Go: filename, line, column). -/
structure Pos where
  filename : String
  line : Nat
  column : Nat
deriving DecidableEq, Repr

/-- Token kinds used by the parser (package lexer/token). The token package is
not under src/; the kinds are those the parser in src/unnamed/part_001 and the
sample program in src/unnamed/part_002 mention. -/
inductive TokenKind where
  | fn
  | externKw
  | id
  | openParen
  | closeParen
  | openCurly
  | closeCurly
  | semicolon
  | comma
  | colonEqual
  | equal
  | dot
  | dotDotDot
  | star
  | slash
  | plus
  | minus
  | andKw
  | orKw
  | eqEq
  | bangEq
  | greater
  | greaterEq
  | less
  | lessEq
  | notKw
  | returnKw
  | ifKw
  | elifKw
  | elseKw
  | forKw
  | whileKw
  | intLit
  | strLit
  | voidType
  | intType
  | i32Type
  | u8Type
  | boolType
  | eof
deriving DecidableEq, Repr

/-- A token: kind, literal text, and source position (token.Token in Go). -/
structure Token where
  kind : TokenKind
  lexeme : String
  pos : Pos
deriving DecidableEq, Repr

/-- Go error values returned by the scope and parser code.  Go compares errors
with `==`, which for interface values is identity: an error freshly allocated
by `fmt.Errorf` is never `==` to a package-level sentinel, whatever its text.
The variants record which allocation site produced the value, so that the
embedding of `err == sentinel` checks can be faithful to that identity
semantics:
* `sentinel` is `diagnostics.COMPILER_ERROR_FOUND`;
* `fresh msg` is an error built by `fmt.Errorf`/`errors.New` at a parser call
  site (a fresh allocation, distinct from every sentinel);
* `scopeDuplicate name` is the error `fmt.Errorf("%s: %s",
  SYMBOL_ALREADY_DEFINED_ON_SCOPE, name)` from Scope.Insert
  (src/unnamed/part_000:24) — a fresh wrapped allocation, hence not identical
  to any sentinel;
* `scopeNotFound name` is `fmt.Errorf("%s: %s", SYMBOL_NOT_FOUND_ON_SCOPE,
  name)` from Scope.Lookup (src/unnamed/part_000:37);
* `astDuplicateSentinel` is the package-level sentinel
  `ast.ERR_SYMBOL_ALREADY_DEFINED_ON_SCOPE` that parseFnDecl compares
  against (src/unnamed/part_001:374); no function in src/ ever returns this
  value, since Scope.Insert wraps its sentinel's text into a fresh error;
* `fatalExit msg` models `log.Fatal`, which terminates the process
  (parseFieldAccess, src/unnamed/part_001:1087);
* `fuelOut` is the artificial out-of-fuel marker of this embedding. -/
inductive GoErr where
  | sentinel
  | fresh (msg : String)
  | scopeDuplicate (name : String)
  | scopeNotFound (name : String)
  | astDuplicateSentinel
  | fatalExit (msg : String)
  | fuelOut
deriving DecidableEq, Repr

/-- Diagnostics reported to the collector (diagnostics.Diag in Go holds one
formatted message string; each variant here records which message was
formatted, together with the arguments interpolated into it). -/
inductive Diag where
  | unexpectedOnGlobalScope (pos : Pos)
  | expectedName (pos : Pos) (kind : TokenKind)
  | expectedOpenCurly (pos : Pos) (kind : TokenKind)
  | expectedCloseCurly (pos : Pos) (kind : TokenKind)
  | expectedPrototypeOrCloseCurly (pos : Pos) (kind : TokenKind)
  | expectedSemicolonPrototype (pos : Pos) (kind : TokenKind)
  | functionRedeclaration (pos : Pos) (name : String)
  | expectedOpenParen (pos : Pos) (kind : TokenKind)
  | unexpectedDotDotDot (pos : Pos)
  | expectedCloseParenOrId (pos : Pos) (kind : TokenKind)
  | expectedParamType (pos : Pos) (lexeme : String) (kind : TokenKind)
  | expectedCloseParen (pos : Pos) (kind : TokenKind)
  | expectedReturnTy (pos : Pos) (kind : TokenKind)
  | expectedExpressionOrSemicolon (pos : Pos) (kind : TokenKind)
  | expectedSemicolonStmt (pos : Pos) (kind : TokenKind)
  | expectedStatementOrCloseCurly (pos : Pos) (kind : TokenKind)
deriving DecidableEq, Repr

/-- The chained symbol table of src/unnamed/part_000: a local mapping from
names to values plus an optional parent (`parent *Scope[V]`, nil = none).
The Go map is embedded as an association list with unique keys (Insert only
adds a key after checking its absence, so uniqueness is invariant). -/
inductive Scope (V : Type) where
  | mk (parent : Option (Scope V)) (nodes : List (String × V))

/-- The parent pointer of a scope. -/
def Scope.parentOf {V : Type} : Scope V → Option (Scope V)
  | .mk p _ => p

/-- The local name-to-value mapping of a scope. -/
def Scope.nodesOf {V : Type} : Scope V → List (String × V)
  | .mk _ ns => ns

/-- Go map read `v, ok := nodes[name]` on the association-list embedding. -/
def lookupNodes {V : Type} : List (String × V) → String → Option V
  | [], _ => none
  | (k, v) :: rest, name => if k = name then some v else lookupNodes rest name

/-- Scope.Insert (src/unnamed/part_000:22-28): if `name` is already present in
this scope's own mapping, return the duplicate-symbol error built by
`fmt.Errorf` and leave the scope untouched; otherwise add the binding.  Go
mutates the receiver; the embedding returns the error paired with the
resulting scope. -/
def Scope.Insert {V : Type} (scope : Scope V) (name : String) (element : V) :
    Except GoErr Unit × Scope V :=
  match lookupNodes scope.nodesOf name with
  | some _ => (.error (.scopeDuplicate name), scope)
  | none => (.ok Unit.unit, Scope.mk scope.parentOf (scope.nodesOf ++ [(name, element)]))

/-- Scope.Lookup (src/unnamed/part_000:30-40): local mapping first; on a miss,
fail with the not-found error when there is no parent, else recurse into the
parent. -/
def Scope.Lookup {V : Type} : Scope V → String → Except GoErr V
  | .mk parent ns, name =>
    match lookupNodes ns name with
    | some node => .ok node
    | none =>
      match parent with
      | none => .error (.scopeNotFound name)
      | some p => Scope.Lookup p name

/-- The chain of scopes visited by Lookup: the scope itself, then its
ancestors in order, ending at the parent-less root. -/
def Scope.chain {V : Type} : Scope V → List (Scope V)
  | .mk parent ns =>
    Scope.mk parent ns ::
      (match parent with
       | none => []
       | some p => Scope.chain p)

/-- The first binding of `n` among a list of scopes, searching each scope's
local mapping in list order: the "nearest enclosing scope" value of the spec. -/
def firstBinding {V : Type} : List (Scope V) → String → Option V
  | [], _ => none
  | t :: rest, n =>
    match lookupNodes t.nodesOf n with
    | some v => some v
    | none => firstBinding rest n

theorem lookup_eq_firstBinding {V : Type} :
    ∀ (s : Scope V) (n : String),
      Scope.Lookup s n =
        (match firstBinding (Scope.chain s) n with
         | some v => .ok v
         | none => .error (.scopeNotFound n))
  | .mk none ns, n => by
    simp only [Scope.Lookup, Scope.chain, firstBinding, Scope.nodesOf]
    cases lookupNodes ns n <;> rfl
  | .mk (some p) ns, n => by
    simp only [Scope.Lookup, Scope.chain, firstBinding, Scope.nodesOf]
    cases lookupNodes ns n with
    | none => simpa using lookup_eq_firstBinding p n
    | some v => rfl

theorem firstBinding_some_iff {V : Type} (n : String) :
    ∀ (l : List (Scope V)) (v : V),
      firstBinding l n = some v ↔
        ∃ pre t post, l = pre ++ t :: post ∧
          (∀ u ∈ pre, lookupNodes (Scope.nodesOf u) n = none) ∧
          lookupNodes (Scope.nodesOf t) n = some v := by
  intro l
  induction l with
  | nil =>
    intro v
    constructor
    · intro h
      simp [firstBinding] at h
    · rintro ⟨pre, t, post, h, _, _⟩
      exact absurd h (by simp)
  | cons hd tl ih =>
    intro v
    constructor
    · intro h
      cases hh : lookupNodes (Scope.nodesOf hd) n with
      | some w =>
        refine ⟨[], hd, tl, rfl, by simp, ?_⟩
        simp only [firstBinding, hh] at h
        rw [hh, h]
      | none =>
        simp only [firstBinding, hh] at h
        obtain ⟨pre, t, post, hl, hpre, ht⟩ := (ih v).mp h
        exact ⟨hd :: pre, t, post, by simp [hl], by
          intro u hu
          rcases List.mem_cons.mp hu with h1 | h2
          · exact h1 ▸ hh
          · exact hpre u h2, ht⟩
    · rintro ⟨pre, t, post, hl, hpre, ht⟩
      cases pre with
      | nil =>
        simp only [List.nil_append, List.cons.injEq] at hl
        obtain ⟨h1, h2⟩ := hl
        simp [firstBinding, h1 ▸ ht]
      | cons q qre =>
        simp only [List.cons_append, List.cons.injEq] at hl
        obtain ⟨h1, h2⟩ := hl
        have hq : lookupNodes (Scope.nodesOf hd) n = none := by
          have := hpre q (by simp)
          rw [h1]; exact this
        simp only [firstBinding, hq]
        exact (ih v).mpr ⟨qre, t, post, h2, fun u hu => hpre u (by simp [hu]), ht⟩

theorem firstBinding_none_iff {V : Type} (n : String) :
    ∀ (l : List (Scope V)),
      firstBinding l n = none ↔ ∀ t ∈ l, lookupNodes (Scope.nodesOf t) n = none := by
  intro l
  induction l with
  | nil => simp [firstBinding]
  | cons hd tl ih =>
    cases hh : lookupNodes (Scope.nodesOf hd) n with
    | some w =>
      simp only [firstBinding, hh]
      constructor
      · intro h; exact absurd h (by simp)
      · intro h; exact absurd (h hd (by simp)) (by simp [hh])
    | none =>
      simp only [firstBinding, hh]
      rw [ih]
      constructor
      · intro h t ht
        rcases List.mem_cons.mp ht with h1 | h2
        · exact h1 ▸ hh
        · exact h t h2
      · intro h t ht; exact h t (by simp [ht])

/-- C3: Insert(n, v) on a scope fails with the duplicate-symbol error exactly
when n is bound in that scope's own mapping — the parent is neither inspected
nor affected; otherwise it binds n to v.  In particular a fresh child scope
under a parent that binds n accepts n and keeps its parent component intact. -/
theorem c3_insert_local_only {V : Type} (parent : Option (Scope V))
    (ns : List (String × V)) (n : String) (v : V) :
    ((∃ w, lookupNodes ns n = some w) →
      Scope.Insert (Scope.mk parent ns) n v =
        (.error (.scopeDuplicate n), Scope.mk parent ns)) ∧
    (lookupNodes ns n = none →
      Scope.Insert (Scope.mk parent ns) n v =
        (.ok Unit.unit, Scope.mk parent (ns ++ [(n, v)]))) ∧
    (∀ p : Scope V,
      Scope.Insert (Scope.mk (some p) []) n v =
        (.ok Unit.unit, Scope.mk (some p) [(n, v)])) := by
  refine ⟨?_, ?_, ?_⟩
  · rintro ⟨w, hw⟩
    simp [Scope.Insert, Scope.nodesOf, hw]
  · intro h
    simp [Scope.Insert, Scope.nodesOf, Scope.parentOf, h]
  · intro p
    simp [Scope.Insert, Scope.nodesOf, Scope.parentOf, lookupNodes]

/-- Witness for C3 at concrete inputs over V = Nat. -/
theorem c3_insert_local_only_witness :
    Scope.Insert (Scope.mk (none : Option (Scope Nat)) [("x", 1)]) "x" 2 =
      (.error (.scopeDuplicate "x"), Scope.mk none [("x", 1)]) ∧
    Scope.Insert (Scope.mk (none : Option (Scope Nat)) [("x", 1)]) "y" 2 =
      (.ok Unit.unit, Scope.mk none [("x", 1), ("y", 2)]) ∧
    Scope.Insert (Scope.mk (some (Scope.mk none [("x", 1)]))
        ([] : List (String × Nat))) "x" 3 =
      (.ok Unit.unit, Scope.mk (some (Scope.mk none [("x", 1)])) [("x", 3)]) :=
  ⟨(c3_insert_local_only none [("x", 1)] "x" 2).1 ⟨1, by simp [lookupNodes]⟩,
   (c3_insert_local_only none [("x", 1)] "y" 2).2.1 (by simp [lookupNodes]),
   (c3_insert_local_only (some (Scope.mk none [("x", 1)])) [] "x" 3).2.2
     (Scope.mk none [("x", 1)])⟩

/-- C4: Lookup(n) returns the value bound in the nearest enclosing scope that
binds n — the first scope along the chain (the scope itself, then ancestors in
order) whose local mapping binds n — and fails with the symbol-not-found error
exactly when no scope in the chain binds n (the chain being exhausted at the
parent-less root). -/
theorem c4_lookup_chain {V : Type} (s : Scope V) (n : String) :
    (∀ v : V, Scope.Lookup s n = .ok v ↔
      ∃ pre t post, Scope.chain s = pre ++ t :: post ∧
        (∀ u ∈ pre, lookupNodes (Scope.nodesOf u) n = none) ∧
        lookupNodes (Scope.nodesOf t) n = some v) ∧
    (Scope.Lookup s n = .error (.scopeNotFound n) ↔
      ∀ t ∈ Scope.chain s, lookupNodes (Scope.nodesOf t) n = none) := by
  constructor
  · intro v
    rw [lookup_eq_firstBinding s n, ← firstBinding_some_iff n (Scope.chain s) v]
    cases firstBinding (Scope.chain s) n <;> simp
  · rw [lookup_eq_firstBinding s n, ← firstBinding_none_iff n (Scope.chain s)]
    cases firstBinding (Scope.chain s) n <;> simp

/-- C10: when Insert fails with the duplicate-symbol error, the scope is
returned completely unchanged — the original binding of n is preserved and no
binding is added, removed or replaced. -/
theorem c10_insert_failure_atomic {V : Type} (s : Scope V) (n : String)
    (v w : V) (h : lookupNodes s.nodesOf n = some w) :
    Scope.Insert s n v = (.error (.scopeDuplicate n), s) := by
  unfold Scope.Insert
  rw [h]

/-- Witness for C10 at a concrete input over V = Nat. -/
theorem c10_insert_failure_atomic_witness :
    Scope.Insert (Scope.mk (none : Option (Scope Nat)) [("a", 7), ("b", 8)]) "b" 9 =
      (.error (.scopeDuplicate "b"), Scope.mk none [("a", 7), ("b", 8)]) :=
  c10_insert_failure_atomic (Scope.mk none [("a", 7), ("b", 8)]) "b" 9 8
    (by simp [lookupNodes, Scope.nodesOf])

/-- Expression types as written, uninterpreted (ast.BasicType, ast.PointerType,
ast.IdType). -/
inductive ExprType where
  | basic (kind : TokenKind)
  | pointer (ty : ExprType)
  | idType (name : Token)
deriving DecidableEq, Repr

/-- The parser's lowest binary level set, ast.LOGICAL in src/unnamed/part_001;
in src/ast/expr.go the and/or/equality operator map is the one named EQUALITY
(EQUAL_EQUAL, BANG_EQUAL, AND, OR). -/
def LOGICAL : TokenKind → Bool
  | .eqEq | .bangEq | .andKw | .orKw => true
  | _ => false

/-- ast.COMPARASION (src/ast/expr.go): `>` `>=` `<` `<=`. -/
def COMPARASION : TokenKind → Bool
  | .greater | .greaterEq | .less | .lessEq => true
  | _ => false

/-- ast.TERM (src/ast/expr.go): `-` `+`. -/
def TERM : TokenKind → Bool
  | .minus | .plus => true
  | _ => false

/-- ast.FACTOR (src/ast/expr.go): `/` `*`. -/
def FACTOR : TokenKind → Bool
  | .slash | .star => true
  | _ => false

/-- ast.UNARY (src/ast/expr.go): `not`, unary `-`. -/
def UNARY : TokenKind → Bool
  | .notKw | .minus => true
  | _ => false

/-- Modelled from the spec: token.LITERAL_KIND (the token package is not under
src/); §4.4 resolves "a literal token" at primary level, and the sample
program src/unnamed/part_002 uses integer and string literals. -/
def LITERAL_KIND : TokenKind → Bool
  | .intLit | .strLit => true
  | _ => false

/-- Modelled from the spec: token.Kind.IsBasicType (the token package is not
under src/); the primitive type kinds are those the sample program
src/unnamed/part_002 writes (int, i32, u8) plus void/bool. -/
def TokenKind.IsBasicType : TokenKind → Bool
  | .voidType | .intType | .i32Type | .u8Type | .boolType => true
  | _ => false

mutual
/-- Expressions (ast.LiteralExpr, ast.IdExpr, ast.UnaryExpr, ast.BinaryExpr,
ast.FunctionCall, ast.FieldAccess, ast.VoidExpr).  A literal records the
BasicType built from its token kind and the raw lexeme, exactly as
parsePrimary constructs it. -/
inductive Expr where
  | literal (ty : ExprType) (value : String)
  | ident (name : Token)
  | unary (op : TokenKind) (value : Expr)
  | binary (left : Expr) (op : TokenKind) (right : Expr)
  | call (name : Token) (args : List Expr)
  | fieldAccess (left : Expr) (right : Expr)
  | voidExpr

/-- ast.VarStmt: name, optional explicit type, initializer, is-declaration
flag, needs-inference flag. -/
inductive VarStmtT where
  | mk (name : Token) (ty : Option ExprType) (value : Option Expr)
       (decl : Bool) (needsInference : Bool)

/-- ast.BlockStmt: open-curly position, ordered statements, close-curly
position. -/
inductive BlockStmtT where
  | mk (openCurlyPos : Pos) (statements : List Stmt) (closeCurlyPos : Pos)

/-- Statements.  In Go, ast.FunctionCall and ast.FieldAccess double as
statements (ParseIdStmt returns them as ast.Stmt); here they appear as the
dedicated variants fnCallStmt and fieldAccessStmt with the same payload.
condStmt carries the if-branch, the elif-branches (position, condition,
block) and the optional else branch, as ast.CondStmt does. -/
inductive Stmt where
  | varStmt (v : VarStmtT)
  | multiVar (isDecl : Bool) (vars : List VarStmtT)
  | returnStmt (ret : Token) (value : Expr)
  | fnCallStmt (name : Token) (args : List Expr)
  | fieldAccessStmt (left : Expr) (right : Expr)
  | condStmt (ifPos : Pos) (ifExpr : Expr) (ifBlock : BlockStmtT)
      (elifs : List (Pos × Expr × BlockStmtT))
      (elsePart : Option (Pos × BlockStmtT))
  | forLoop (instmt : Stmt) (cond : Expr) (update : Stmt) (block : BlockStmtT)
  | whileLoop (cond : Expr) (block : BlockStmtT)
end

/-- ast.Field: parameter name and its written type. -/
structure Field where
  name : Token
  ty : ExprType

/-- ast.FieldList (src/ast/ast.go): open token, ordered fields, variadic flag,
close token. -/
structure FieldList where
  openTok : Token
  fields : List Field
  isVariadic : Bool
  closeTok : Token

/-- ast.FunctionDecl: name, parameter list, body block, return type.  The Go
struct additionally owns a fresh Scope chained under the module scope
(fnScope); no claim concerns it and ast.Scope's node type is outside src/, so
it is not recorded in the node. -/
inductive FuncDecl where
  | mk (name : Token) (params : FieldList) (block : BlockStmtT) (retType : ExprType)

/-- ast.Proto: a foreign signature — name, parameters, return type, no body. -/
structure Proto where
  name : Token
  params : FieldList
  retType : ExprType

/-- Top-level declarations (ast.Node at file scope): a function declaration or
an extern block (name plus ordered prototypes; its Scope field is nil in Go). -/
inductive Node where
  | fnDecl (d : FuncDecl)
  | externDecl (name : Token) (prototypes : List Proto)

/-- Parser state: the remaining token stream (lexer.Peek/Peek1/Skip work on
its front), the diagnostics collected so far (collector.ReportAndSave
appends), and the module scope (p.moduleScope, receiver of Insert). -/
structure PSt where
  toks : List Token
  diags : List Diag
  scope : Scope FuncDecl

/-- The EOF token the lexer yields once the stream is exhausted. -/
def eofTok : Token := Token.mk .eof "" (Pos.mk "" 0 0)

/-- lexer.Peek: current token (EOF once exhausted). -/
def peekT : List Token → Token
  | [] => eofTok
  | t :: _ => t

/-- lexer.Peek1: one-token lookahead. -/
def peek1T : List Token → Token
  | _ :: t :: _ => t
  | _ => eofTok

/-- lexer.Skip: consume the current token. -/
def skipT : List Token → List Token
  | [] => []
  | _ :: r => r

/-- lexer.NextIs: does the current token have this kind. -/
def nextIs (k : TokenKind) (ts : List Token) : Bool :=
  (peekT ts).kind == k

/-- State after lexer.Skip. -/
def advanceSt (st : PSt) : PSt :=
  PSt.mk (skipT st.toks) st.diags st.scope

/-- State with a replaced token stream. -/
def withToks (ts : List Token) (st : PSt) : PSt :=
  PSt.mk ts st.diags st.scope

/-- collector.ReportAndSave: append a diagnostic. -/
def reportD (d : Diag) (st : PSt) : PSt :=
  PSt.mk st.toks (st.diags ++ [d]) st.scope

/-- Parser.expect (src/unnamed/part_001:545-552): peek; on a kind mismatch
return the peeked token with ok=false and consume nothing, else consume it. -/
def expectT (k : TokenKind) (ts : List Token) : (Token × Bool) × List Token :=
  let tok := peekT ts
  if tok.kind == k then ((tok, true), skipT ts) else ((tok, false), ts)

/-- The mutation `variable.Type = ty; variable.NeedsInference = false` in
parseVar (src/unnamed/part_001:756-757). -/
def setVarType : VarStmtT → ExprType → VarStmtT
  | .mk name _ value decl _, ty => .mk name (some ty) value decl false

/-- The mutation `vars[i].Value = exprs[i]; vars[i].Decl = isDecl`
in parseVar (src/unnamed/part_001:780-783). -/
def setVarValue : VarStmtT → Expr → Bool → VarStmtT
  | .mk name ty _ _ ni, e, isDecl => .mk name ty (some e) isDecl ni

/-- The Go comparison `err == ast.ERR_SYMBOL_ALREADY_DEFINED_ON_SCOPE`
(src/unnamed/part_001:374).  Go `==` on error interfaces compares identity;
`astDuplicateSentinel` stands for the package-level sentinel value itself.
Scope.Insert (src/unnamed/part_000:22-28) builds its duplicate error with
`fmt.Errorf`, a fresh allocation wrapping the sentinel's text — a distinct
value, for which the identity comparison is false. -/
def errIsAstDuplicateSentinel : GoErr → Bool
  | .astDuplicateSentinel => true
  | _ => false

mutual

/-- parseExprType (src/unnamed/part_001:554-574). -/
def parseExprType : Nat → PSt → Except GoErr ExprType × PSt
  | 0, st => (.error .fuelOut, st)
  | fuel + 1, st =>
    let tok := peekT st.toks
    match tok.kind with
    | .star =>
      match parseExprType fuel (advanceSt st) with
      | (.error e, st2) => (.error e, st2)
      | (.ok ty, st2) => (.ok (.pointer ty), st2)
    | .id => (.ok (.idType tok), advanceSt st)
    | k =>
      if k.IsBasicType then (.ok (.basic k), advanceSt st)
      else (.error .sentinel, st)

/-- parseReturnType (src/unnamed/part_001:520-543): for prototypes a `;`, or
in any case a `{`, means the void basic type without consuming; otherwise the
written type is parsed, a failure being reported as an expected-type
diagnostic plus the sentinel. -/
def parseReturnType : Nat → Bool → PSt → Except GoErr ExprType × PSt
  | 0, _, st => (.error .fuelOut, st)
  | fuel + 1, isPrototype, st =>
    if (isPrototype && nextIs .semicolon st.toks) || nextIs .openCurly st.toks then
      (.ok (.basic .voidType), st)
    else
      match parseExprType fuel st with
      | (.ok returnType, st1) => (.ok returnType, st1)
      | (.error _, st1) =>
        let tok := peekT st1.toks
        (.error .sentinel, reportD (.expectedReturnTy tok.pos tok.kind) st1)

/-- parseFunctionParams (src/unnamed/part_001:409-518): `(`, the parameter
loop, `)`. -/
def parseFunctionParams : Nat → PSt → Except GoErr FieldList × PSt
  | 0, st => (.error .fuelOut, st)
  | fuel + 1, st =>
    match expectT .openParen st.toks with
    | ((openParen, false), ts) =>
      (.error .sentinel,
        reportD (.expectedOpenParen openParen.pos openParen.kind) (withToks ts st))
    | ((openParen, true), ts) =>
      match parseParamsLoop fuel [] false (withToks ts st) with
      | (.error e, st2) => (.error e, st2)
      | (.ok (params, isVariadic), st2) =>
        match expectT .closeParen st2.toks with
        | ((closeParen, false), ts2) =>
          (.error .sentinel,
            reportD (.expectedCloseParen closeParen.pos closeParen.kind) (withToks ts2 st2))
        | ((closeParen, true), ts2) =>
          (.ok (FieldList.mk openParen params isVariadic closeParen), withToks ts2 st2)

/-- The parameter loop of parseFunctionParams (src/unnamed/part_001:429-494):
stop at `)`; an ellipsis flags variadic and must be immediately followed by
`)`, otherwise the only-at-end diagnostic plus the sentinel; else a name and
a type, then an optional comma. -/
def parseParamsLoop : Nat → List Field → Bool → PSt →
    Except GoErr (List Field × Bool) × PSt
  | 0, _, _, st => (.error .fuelOut, st)
  | fuel + 1, params, isVariadic, st =>
    if nextIs .closeParen st.toks then (.ok (params, isVariadic), st)
    else if nextIs .dotDotDot st.toks then
      let tok := peekT st.toks
      let st1 := advanceSt st
      if nextIs .closeParen st1.toks then (.ok (params, true), st1)
      else (.error .sentinel, reportD (.unexpectedDotDotDot tok.pos) st1)
    else
      match expectT .id st.toks with
      | ((name, false), ts) =>
        (.error .sentinel,
          reportD (.expectedCloseParenOrId name.pos name.kind) (withToks ts st))
      | ((name, true), ts) =>
        match parseExprType fuel (withToks ts st) with
        | (.error _, st2) =>
          let tok := peekT st2.toks
          (.error .sentinel,
            reportD (.expectedParamType tok.pos name.lexeme tok.kind) st2)
        | (.ok paramType, st2) =>
          let params2 := params ++ [Field.mk name paramType]
          if nextIs .comma st2.toks then
            parseParamsLoop fuel params2 isVariadic (advanceSt st2)
          else
            parseParamsLoop fuel params2 isVariadic st2

/-- parseExpr (src/unnamed/part_001:880-882): the precedence ladder's entry. -/
def parseExpr : Nat → PSt → Except GoErr Expr × PSt
  | 0, st => (.error .fuelOut, st)
  | fuel + 1, st => parseLogical fuel st

/-- parseLogical (src/unnamed/part_001:884-905). -/
def parseLogical : Nat → PSt → Except GoErr Expr × PSt
  | 0, st => (.error .fuelOut, st)
  | fuel + 1, st =>
    match parseComparasion fuel st with
    | (.error e, st1) => (.error e, st1)
    | (.ok lhs, st1) => parseLogicalLoop fuel lhs st1

/-- The left-folding operator loop of parseLogical. -/
def parseLogicalLoop : Nat → Expr → PSt → Except GoErr Expr × PSt
  | 0, _, st => (.error .fuelOut, st)
  | fuel + 1, lhs, st =>
    let next := peekT st.toks
    if LOGICAL next.kind then
      match parseComparasion fuel (advanceSt st) with
      | (.error e, st1) => (.error e, st1)
      | (.ok rhs, st1) => parseLogicalLoop fuel (.binary lhs next.kind rhs) st1
    else (.ok lhs, st)

/-- parseComparasion (src/unnamed/part_001:907-927). -/
def parseComparasion : Nat → PSt → Except GoErr Expr × PSt
  | 0, st => (.error .fuelOut, st)
  | fuel + 1, st =>
    match parseTerm fuel st with
    | (.error e, st1) => (.error e, st1)
    | (.ok lhs, st1) => parseComparasionLoop fuel lhs st1

/-- The left-folding operator loop of parseComparasion. -/
def parseComparasionLoop : Nat → Expr → PSt → Except GoErr Expr × PSt
  | 0, _, st => (.error .fuelOut, st)
  | fuel + 1, lhs, st =>
    let next := peekT st.toks
    if COMPARASION next.kind then
      match parseTerm fuel (advanceSt st) with
      | (.error e, st1) => (.error e, st1)
      | (.ok rhs, st1) => parseComparasionLoop fuel (.binary lhs next.kind rhs) st1
    else (.ok lhs, st)

/-- parseTerm (src/unnamed/part_001:929-949). -/
def parseTerm : Nat → PSt → Except GoErr Expr × PSt
  | 0, st => (.error .fuelOut, st)
  | fuel + 1, st =>
    match parseFactor fuel st with
    | (.error e, st1) => (.error e, st1)
    | (.ok lhs, st1) => parseTermLoop fuel lhs st1

/-- The left-folding operator loop of parseTerm. -/
def parseTermLoop : Nat → Expr → PSt → Except GoErr Expr × PSt
  | 0, _, st => (.error .fuelOut, st)
  | fuel + 1, lhs, st =>
    let next := peekT st.toks
    if TERM next.kind then
      match parseFactor fuel (advanceSt st) with
      | (.error e, st1) => (.error e, st1)
      | (.ok rhs, st1) => parseTermLoop fuel (.binary lhs next.kind rhs) st1
    else (.ok lhs, st)

/-- parseFactor (src/unnamed/part_001:951-972). -/
def parseFactor : Nat → PSt → Except GoErr Expr × PSt
  | 0, st => (.error .fuelOut, st)
  | fuel + 1, st =>
    match parseUnary fuel st with
    | (.error e, st1) => (.error e, st1)
    | (.ok lhs, st1) => parseFactorLoop fuel lhs st1

/-- The left-folding operator loop of parseFactor. -/
def parseFactorLoop : Nat → Expr → PSt → Except GoErr Expr × PSt
  | 0, _, st => (.error .fuelOut, st)
  | fuel + 1, lhs, st =>
    let next := peekT st.toks
    if FACTOR next.kind then
      match parseUnary fuel (advanceSt st) with
      | (.error e, st1) => (.error e, st1)
      | (.ok rhs, st1) => parseFactorLoop fuel (.binary lhs next.kind rhs) st1
    else (.ok lhs, st)

/-- parseUnary (src/unnamed/part_001:974-986): prefix operators recurse into
parseUnary itself, then fall through to primary. -/
def parseUnary : Nat → PSt → Except GoErr Expr × PSt
  | 0, st => (.error .fuelOut, st)
  | fuel + 1, st =>
    let next := peekT st.toks
    if UNARY next.kind then
      match parseUnary fuel (advanceSt st) with
      | (.error e, st1) => (.error e, st1)
      | (.ok rhs, st1) => (.ok (.unary next.kind rhs), st1)
    else parsePrimary fuel st

/-- parsePrimary (src/unnamed/part_001:988-1031): an identifier dispatched on
one-token lookahead (call, field access, bare reference), a parenthesized
sub-expression, or a literal. -/
def parsePrimary : Nat → PSt → Except GoErr Expr × PSt
  | 0, st => (.error .fuelOut, st)
  | fuel + 1, st =>
    let tok := peekT st.toks
    match tok.kind with
    | .id =>
      let next := peek1T st.toks
      match next.kind with
      | .openParen =>
        match parseFnCall fuel st with
        | (.error e, st1) => (.error e, st1)
        | (.ok (name, args), st1) => (.ok (.call name args), st1)
      | .dot =>
        match parseFieldAccess fuel st with
        | (.error e, st1) => (.error e, st1)
        | (.ok (l, r), st1) => (.ok (.fieldAccess l r), st1)
      | _ => (.ok (.ident tok), advanceSt st)
    | .openParen =>
      match parseExpr fuel (advanceSt st) with
      | (.error e, st2) => (.error e, st2)
      | (.ok expr, st2) =>
        match expectT .closeParen st2.toks with
        | ((_, false), ts) =>
          (.error (.fresh "expected closing parenthesis"), withToks ts st2)
        | ((_, true), ts) => (.ok expr, withToks ts st2)
    | k =>
      if LITERAL_KIND k then (.ok (.literal (.basic k) tok.lexeme), advanceSt st)
      else (.error (.fresh "invalid token for expression parsing"), st)

/-- parseFnCall (src/unnamed/part_001:1057-1081): name, `(`, argument list,
`)`.  Returns the FunctionCall payload, wrapped as an expression or a
statement by its callers (the Go node implements both interfaces). -/
def parseFnCall : Nat → PSt → Except GoErr (Token × List Expr) × PSt
  | 0, st => (.error .fuelOut, st)
  | fuel + 1, st =>
    match expectT .id st.toks with
    | ((_, false), ts) => (.error (.fresh "expected 'id'"), withToks ts st)
    | ((name, true), ts) =>
      match expectT .openParen ts with
      | ((_, false), ts1) => (.error (.fresh "expected '('"), withToks ts1 st)
      | ((_, true), ts1) =>
        match parseExprListLoop fuel [.closeParen] [] (withToks ts1 st) with
        | (.error e, st2) => (.error e, st2)
        | (.ok args, st2) =>
          match expectT .closeParen st2.toks with
          | ((_, false), ts2) => (.error (.fresh "expected ')'"), withToks ts2 st2)
          | ((_, true), ts2) => (.ok (name, args), withToks ts2 st2)

/-- The loop of parseExprList (src/unnamed/part_001:1033-1055): stop on any
token in `possibleEnds`, else parse an expression, then an optional comma. -/
def parseExprListLoop : Nat → List TokenKind → List Expr → PSt →
    Except GoErr (List Expr) × PSt
  | 0, _, _, st => (.error .fuelOut, st)
  | fuel + 1, possibleEnds, acc, st =>
    if possibleEnds.any (fun e => nextIs e st.toks) then (.ok acc, st)
    else
      match parseExpr fuel st with
      | (.error e, st1) => (.error e, st1)
      | (.ok expr, st1) =>
        if nextIs .comma st1.toks then
          parseExprListLoop fuel possibleEnds (acc ++ [expr]) (advanceSt st1)
        else
          parseExprListLoop fuel possibleEnds (acc ++ [expr]) st1

/-- parseFieldAccess (src/unnamed/part_001:1083-1102): one identifier, one
dot, then a right operand from parsePrimary.  The Go error paths call
log.Fatal, which terminates the process; they are embedded as the
distinguished fatalExit error. -/
def parseFieldAccess : Nat → PSt → Except GoErr (Expr × Expr) × PSt
  | 0, st => (.error .fuelOut, st)
  | fuel + 1, st =>
    match expectT .id st.toks with
    | ((_, false), ts) => (.error (.fatalExit "expected ID"), withToks ts st)
    | ((id, true), ts) =>
      match expectT .dot ts with
      | ((_, false), ts1) => (.error (.fatalExit "expect a dot"), withToks ts1 st)
      | ((_, true), ts1) =>
        match parsePrimary fuel (withToks ts1 st) with
        | (.error _, st2) => (.error (.fatalExit "field access right operand"), st2)
        | (.ok right, st2) => (.ok (.ident id, right), st2)

/-- parseStmt (src/unnamed/part_001:576-655): dispatch on the leading token;
an unrecognized leading token yields no statement and no error (Go's
`nil, nil`), embedded as `.ok none`. -/
def parseStmt : Nat → PSt → Except GoErr (Option Stmt) × PSt
  | 0, st => (.error .fuelOut, st)
  | fuel + 1, st =>
    let tok := peekT st.toks
    match tok.kind with
    | .returnKw =>
      let st1 := advanceSt st
      if nextIs .semicolon st1.toks then
        (.ok (some (.returnStmt tok .voidExpr)), advanceSt st1)
      else
        match parseExpr fuel st1 with
        | (.error _, st2) =>
          let t2 := peekT st2.toks
          (.error .sentinel, reportD (.expectedExpressionOrSemicolon t2.pos t2.kind) st2)
        | (.ok returnValue, st2) =>
          match expectT .semicolon st2.toks with
          | ((_, false), ts) =>
            let t2 := peekT ts
            (.error .sentinel,
              reportD (.expectedSemicolonStmt t2.pos t2.kind) (withToks ts st2))
          | ((_, true), ts) =>
            (.ok (some (.returnStmt tok returnValue)), withToks ts st2)
    | .id =>
      match ParseIdStmt fuel st with
      | (.error e, st1) => (.error e, st1)
      | (.ok idStmt, st1) =>
        match expectT .semicolon st1.toks with
        | ((semicolon, false), ts) =>
          (.error .sentinel,
            reportD (.expectedSemicolonStmt semicolon.pos semicolon.kind) (withToks ts st1))
        | ((_, true), ts) => (.ok (some idStmt), withToks ts st1)
    | .ifKw =>
      match parseCondStmt fuel st with
      | (.error e, st1) => (.error e, st1)
      | (.ok s, st1) => (.ok (some s), st1)
    | .forKw =>
      match parseForLoop fuel st with
      | (.error e, st1) => (.error e, st1)
      | (.ok s, st1) => (.ok (some s), st1)
    | .whileKw =>
      match parseWhileLoop fuel st with
      | (.error e, st1) => (.error e, st1)
      | (.ok s, st1) => (.ok (some s), st1)
    | _ => (.ok none, st)

/-- parseBlock (src/unnamed/part_001:657-704): `{`, the statement loop, `}`. -/
def parseBlock : Nat → PSt → Except GoErr BlockStmtT × PSt
  | 0, st => (.error .fuelOut, st)
  | fuel + 1, st =>
    match expectT .openCurly st.toks with
    | ((openCurly, false), ts) =>
      (.error (.fresh ("expected open curly, but got " ++ openCurly.lexeme)), withToks ts st)
    | ((openCurly, true), ts) =>
      match parseBlockLoop fuel [] (withToks ts st) with
      | (.error e, st1) => (.error e, st1)
      | (.ok statements, st1) =>
        match expectT .closeCurly st1.toks with
        | ((closeCurly, false), ts1) =>
          (.error .sentinel,
            reportD (.expectedStatementOrCloseCurly closeCurly.pos closeCurly.kind)
              (withToks ts1 st1))
        | ((closeCurly, true), ts1) =>
          (.ok (BlockStmtT.mk openCurly.pos statements closeCurly.pos), withToks ts1 st1)

/-- The statement loop of parseBlock: stop at `}` or at the first leading
token parseStmt does not recognize. -/
def parseBlockLoop : Nat → List Stmt → PSt → Except GoErr (List Stmt) × PSt
  | 0, _, st => (.error .fuelOut, st)
  | fuel + 1, acc, st =>
    if (peekT st.toks).kind == .closeCurly then (.ok acc, st)
    else
      match parseStmt fuel st with
      | (.error e, st1) => (.error e, st1)
      | (.ok none, st1) => (.ok acc, st1)
      | (.ok (some stmt), st1) => parseBlockLoop fuel (acc ++ [stmt]) st1

/-- ParseIdStmt (src/unnamed/part_001:706-718): second-token lookahead —
`(` means a call statement, `.` a field-access statement, anything else a
variable statement. -/
def ParseIdStmt : Nat → PSt → Except GoErr Stmt × PSt
  | 0, st => (.error .fuelOut, st)
  | fuel + 1, st =>
    let aheadId := peek1T st.toks
    match aheadId.kind with
    | .openParen =>
      match parseFnCall fuel st with
      | (.error e, st1) => (.error e, st1)
      | (.ok (name, args), st1) => (.ok (.fnCallStmt name args), st1)
    | .dot =>
      match parseFieldAccess fuel st with
      | (.error e, st1) => (.error e, st1)
      | (.ok (l, r), st1) => (.ok (.fieldAccessStmt l r), st1)
    | _ => parseVar fuel st

/-- parseVar (src/unnamed/part_001:720-789): the name loop, then the
expression list, a count-mismatch check, the positional pairing of values
with names, and VarStmt versus MultiVarStmt by name count. -/
def parseVar : Nat → PSt → Except GoErr Stmt × PSt
  | 0, st => (.error .fuelOut, st)
  | fuel + 1, st =>
    match parseVarLoop fuel [] st with
    | (.error e, st1) => (.error e, st1)
    | (.ok (vars, isDecl), st1) =>
      match parseExprListLoop fuel [.semicolon, .closeParen] [] st1 with
      | (.error e, st2) => (.error e, st2)
      | (.ok exprs, st2) =>
        if vars.length ≠ exprs.length then
          (.error (.fresh (toString vars.length ++ " != " ++ toString exprs.length)),
            st2)
        else
          let vars2 := List.zipWith (fun v e => setVarValue v e isDecl) vars exprs
          match vars2 with
          | [v] => (.ok (.varStmt v), st2)
          | _ => (.ok (.multiVar isDecl vars2), st2)

/-- The VarDecl loop of parseVar (src/unnamed/part_001:724-769): names, each
optionally followed by a written type, separated by commas, terminated by
`:=` (declaration) or `=` (assignment). -/
def parseVarLoop : Nat → List VarStmtT → PSt →
    Except GoErr (List VarStmtT × Bool) × PSt
  | 0, _, st => (.error .fuelOut, st)
  | fuel + 1, acc, st =>
    match expectT .id st.toks with
    | ((_, false), ts) => (.error (.fresh "expected ID"), withToks ts st)
    | ((name, true), ts) =>
      let varEntry := VarStmtT.mk name none none true true
      let st1 := withToks ts st
      let next := peekT st1.toks
      if next.kind == .colonEqual || next.kind == .equal then
        (.ok (acc ++ [varEntry], next.kind == .colonEqual), advanceSt st1)
      else if next.kind == .comma then
        parseVarLoop fuel (acc ++ [varEntry]) (advanceSt st1)
      else
        match parseExprType fuel st1 with
        | (.error e, st2) => (.error e, st2)
        | (.ok ty, st2) =>
          let varEntry2 := setVarType varEntry ty
          let next2 := peekT st2.toks
          if next2.kind == .colonEqual || next2.kind == .equal then
            (.ok (acc ++ [varEntry2], next2.kind == .colonEqual), advanceSt st2)
          else if next2.kind == .comma then
            parseVarLoop fuel (acc ++ [varEntry2]) (advanceSt st2)
          else
            parseVarLoop fuel (acc ++ [varEntry2]) st2

/-- parseCondStmt (src/unnamed/part_001:806-823). -/
def parseCondStmt : Nat → PSt → Except GoErr Stmt × PSt
  | 0, st => (.error .fuelOut, st)
  | fuel + 1, st =>
    match parseIfCond fuel st with
    | (.error e, st1) => (.error e, st1)
    | (.ok (ifPos, ifExpr, ifBlock), st1) =>
      match parseElifLoop fuel [] st1 with
      | (.error e, st2) => (.error e, st2)
      | (.ok elifConds, st2) =>
        match parseElseCond fuel st2 with
        | (.error e, st3) => (.error e, st3)
        | (.ok elseCond, st3) =>
          (.ok (.condStmt ifPos ifExpr ifBlock elifConds elseCond), st3)

/-- parseIfCond (src/unnamed/part_001:825-842). -/
def parseIfCond : Nat → PSt → Except GoErr (Pos × Expr × BlockStmtT) × PSt
  | 0, st => (.error .fuelOut, st)
  | fuel + 1, st =>
    match expectT .ifKw st.toks with
    | ((_, false), ts) => (.error (.fresh "expected 'if'"), withToks ts st)
    | ((ifToken, true), ts) =>
      match parseExpr fuel (withToks ts st) with
      | (.error e, st1) => (.error e, st1)
      | (.ok ifExpr, st1) =>
        match parseBlock fuel st1 with
        | (.error e, st2) => (.error e, st2)
        | (.ok ifBlock, st2) => (.ok (ifToken.pos, ifExpr, ifBlock), st2)

/-- The loop of parseElifConds (src/unnamed/part_001:844-865). -/
def parseElifLoop : Nat → List (Pos × Expr × BlockStmtT) → PSt →
    Except GoErr (List (Pos × Expr × BlockStmtT)) × PSt
  | 0, _, st => (.error .fuelOut, st)
  | fuel + 1, acc, st =>
    match expectT .elifKw st.toks with
    | ((_, false), _) => (.ok acc, st)
    | ((elifToken, true), ts) =>
      match parseExpr fuel (withToks ts st) with
      | (.error e, st1) => (.error e, st1)
      | (.ok elifExpr, st1) =>
        match parseBlock fuel st1 with
        | (.error e, st2) => (.error e, st2)
        | (.ok elifBlock, st2) =>
          parseElifLoop fuel (acc ++ [(elifToken.pos, elifExpr, elifBlock)]) st2

/-- parseElseCond (src/unnamed/part_001:867-878). -/
def parseElseCond : Nat → PSt → Except GoErr (Option (Pos × BlockStmtT)) × PSt
  | 0, st => (.error .fuelOut, st)
  | fuel + 1, st =>
    match expectT .elseKw st.toks with
    | ((_, false), _) => (.ok none, st)
    | ((elseToken, true), ts) =>
      match parseBlock fuel (withToks ts st) with
      | (.error e, st1) => (.error e, st1)
      | (.ok elseBlock, st1) => (.ok (some (elseToken.pos, elseBlock)), st1)

/-- parseForLoop (src/unnamed/part_001:1104-1155). -/
def parseForLoop : Nat → PSt → Except GoErr Stmt × PSt
  | 0, st => (.error .fuelOut, st)
  | fuel + 1, st =>
    match expectT .forKw st.toks with
    | ((_, false), ts) => (.error (.fresh "expected 'for'"), withToks ts st)
    | ((_, true), ts) =>
      match expectT .openParen ts with
      | ((_, false), ts1) => (.error (.fresh "expected '('"), withToks ts1 st)
      | ((_, true), ts1) =>
        match parseVar fuel (withToks ts1 st) with
        | (.error e, st1) => (.error e, st1)
        | (.ok instmt, st1) =>
          match expectT .semicolon st1.toks with
          | ((_, false), ts2) => (.error (.fresh "expected ';'"), withToks ts2 st1)
          | ((_, true), ts2) =>
            match parseExpr fuel (withToks ts2 st1) with
            | (.error e, st2) => (.error e, st2)
            | (.ok cond, st2) =>
              match expectT .semicolon st2.toks with
              | ((_, false), ts3) => (.error (.fresh "expected ';'"), withToks ts3 st2)
              | ((_, true), ts3) =>
                match parseVar fuel (withToks ts3 st2) with
                | (.error e, st3) => (.error e, st3)
                | (.ok update, st3) =>
                  match expectT .closeParen st3.toks with
                  | ((_, false), ts4) => (.error (.fresh "expected ')'"), withToks ts4 st3)
                  | ((_, true), ts4) =>
                    match parseBlock fuel (withToks ts4 st3) with
                    | (.error e, st4) => (.error e, st4)
                    | (.ok block, st4) =>
                      (.ok (.forLoop instmt cond update block), st4)

/-- parseWhileLoop (src/unnamed/part_001:1180-1196). -/
def parseWhileLoop : Nat → PSt → Except GoErr Stmt × PSt
  | 0, st => (.error .fuelOut, st)
  | fuel + 1, st =>
    match expectT .whileKw st.toks with
    | ((_, false), ts) => (.error (.fresh "expected 'while'"), withToks ts st)
    | ((_, true), ts) =>
      match parseExpr fuel (withToks ts st) with
      | (.error e, st1) => (.error e, st1)
      | (.ok expr, st1) =>
        match parseBlock fuel st1 with
        | (.error e, st2) => (.error e, st2)
        | (.ok block, st2) => (.ok (.whileLoop expr block), st2)

/-- parseFnDecl (src/unnamed/part_001:324-390): `fn`, name, parameters,
return type, body; then Insert into the module scope.  On an insert failure
the Go code compares the returned error by identity with the package sentinel
ast.ERR_SYMBOL_ALREADY_DEFINED_ON_SCOPE and reports the function-redeclaration
diagnostic only when that comparison holds; the error is returned either way. -/
def parseFnDecl : Nat → PSt → Except GoErr FuncDecl × PSt
  | 0, st => (.error .fuelOut, st)
  | fuel + 1, st =>
    match expectT .fn st.toks with
    | ((_, false), ts) => (.error (.fresh "expected 'fn'"), withToks ts st)
    | ((_, true), ts) =>
      match expectT .id ts with
      | ((name, false), ts1) =>
        (.error .sentinel, reportD (.expectedName name.pos name.kind) (withToks ts1 st))
      | ((name, true), ts1) =>
        match parseFunctionParams fuel (withToks ts1 st) with
        | (.error e, st1) => (.error e, st1)
        | (.ok params, st1) =>
          match parseReturnType fuel false st1 with
          | (.error e, st2) => (.error e, st2)
          | (.ok returnType, st2) =>
            match parseBlock fuel st2 with
            | (.error e, st3) => (.error e, st3)
            | (.ok block, st3) =>
              let fnDecl := FuncDecl.mk name params block returnType
              match Scope.Insert st3.scope name.lexeme fnDecl with
              | (.error err, scope2) =>
                let st4 := PSt.mk st3.toks st3.diags scope2
                if errIsAstDuplicateSentinel err then
                  (.error err, reportD (.functionRedeclaration name.pos name.lexeme) st4)
                else
                  (.error err, st4)
              | (.ok _, scope2) => (.ok fnDecl, PSt.mk st3.toks st3.diags scope2)

/-- parsePrototype (src/unnamed/part_001:262-322). -/
def parsePrototype : Nat → PSt → Except GoErr Proto × PSt
  | 0, st => (.error .fuelOut, st)
  | fuel + 1, st =>
    match expectT .fn st.toks with
    | ((fn, false), ts) =>
      (.error .sentinel,
        reportD (.expectedPrototypeOrCloseCurly fn.pos fn.kind) (withToks ts st))
    | ((_, true), ts) =>
      match expectT .id ts with
      | ((name, false), ts1) =>
        (.error .sentinel, reportD (.expectedName name.pos name.kind) (withToks ts1 st))
      | ((name, true), ts1) =>
        match parseFunctionParams fuel (withToks ts1 st) with
        | (.error e, st1) => (.error e, st1)
        | (.ok params, st1) =>
          match parseReturnType fuel true st1 with
          | (.error e, st2) => (.error e, st2)
          | (.ok returnType, st2) =>
            match expectT .semicolon st2.toks with
            | ((semicolon, false), ts2) =>
              (.error .sentinel,
                reportD (.expectedSemicolonPrototype semicolon.pos semicolon.kind)
                  (withToks ts2 st2))
            | ((_, true), ts2) =>
              (.ok (Proto.mk name params returnType), withToks ts2 st2)

/-- parseExternDecl (src/unnamed/part_001:191-260). -/
def parseExternDecl : Nat → PSt → Except GoErr Node × PSt
  | 0, st => (.error .fuelOut, st)
  | fuel + 1, st =>
    match expectT .externKw st.toks with
    | ((_, false), ts) => (.error (.fresh "expected 'extern'"), withToks ts st)
    | ((_, true), ts) =>
      match expectT .id ts with
      | ((name, false), ts1) =>
        (.error .sentinel, reportD (.expectedName name.pos name.kind) (withToks ts1 st))
      | ((name, true), ts1) =>
        match expectT .openCurly ts1 with
        | ((openCurly, false), ts2) =>
          (.error .sentinel,
            reportD (.expectedOpenCurly openCurly.pos openCurly.kind) (withToks ts2 st))
        | ((_, true), ts2) =>
          match parseProtoLoop fuel [] (withToks ts2 st) with
          | (.error e, st1) => (.error e, st1)
          | (.ok prototypes, st1) =>
            match expectT .closeCurly st1.toks with
            | ((closeCurly, false), ts3) =>
              (.error .sentinel,
                reportD (.expectedCloseCurly closeCurly.pos closeCurly.kind)
                  (withToks ts3 st1))
            | ((_, true), ts3) =>
              (.ok (.externDecl name prototypes), withToks ts3 st1)

/-- The prototype loop of parseExternDecl (src/unnamed/part_001:230-240). -/
def parseProtoLoop : Nat → List Proto → PSt → Except GoErr (List Proto) × PSt
  | 0, _, st => (.error .fuelOut, st)
  | fuel + 1, acc, st =>
    if nextIs .closeCurly st.toks then (.ok acc, st)
    else
      match parsePrototype fuel st with
      | (.error e, st1) => (.error e, st1)
      | (.ok proto, st1) => parseProtoLoop fuel (acc ++ [proto]) st1

/-- parseFileNodes together with next (src/unnamed/part_001:89-174): loop
until EOF, dispatching `fn` to parseFnDecl and `extern` to parseExternDecl;
any other token at file scope is the non-declaration diagnostic plus the
sentinel. -/
def parseFileNodesLoop : Nat → List Node → PSt → Except GoErr (List Node) × PSt
  | 0, _, st => (.error .fuelOut, st)
  | fuel + 1, acc, st =>
    let tok := peekT st.toks
    match tok.kind with
    | .eof => (.ok acc, st)
    | .fn =>
      match parseFnDecl fuel st with
      | (.error e, st1) => (.error e, st1)
      | (.ok fnDecl, st1) => parseFileNodesLoop fuel (acc ++ [Node.fnDecl fnDecl]) st1
    | .externKw =>
      match parseExternDecl fuel st with
      | (.error e, st1) => (.error e, st1)
      | (.ok node, st1) => parseFileNodesLoop fuel (acc ++ [node]) st1
    | _ =>
      (.error .sentinel, reportD (.unexpectedOnGlobalScope tok.pos) st)

end

/-- parseExprList (src/unnamed/part_001:1033-1055) with its accumulator made
explicit. -/
def parseExprList (fuel : Nat) (possibleEnds : List TokenKind) (st : PSt) :
    Except GoErr (List Expr) × PSt :=
  parseExprListLoop fuel possibleEnds [] st

/-- parseFileNodes (src/unnamed/part_001:89-102) starting from an empty node
list. -/
def parseFileNodes (fuel : Nat) (st : PSt) : Except GoErr (List Node) × PSt :=
  parseFileNodesLoop fuel [] st

/-- A token at a fixed test position, for concrete inputs. -/
def mkTok (k : TokenKind) (lex : String) : Token :=
  Token.mk k lex (Pos.mk "test.t" 1 1)

/-- Initial parser state over a token stream: no diagnostics collected, an
empty parent-less module scope. -/
def initSt (ts : List Token) : PSt :=
  PSt.mk ts [] (Scope.mk none [])

/-- Whether an expression node is a FieldAccess. -/
def isFieldAccessE : Expr → Bool
  | .fieldAccess _ _ => true
  | _ => false

/-- The token stream of the expression `a.b.c`. -/
def abcSt : PSt :=
  initSt [mkTok .id "a", mkTok .dot ".", mkTok .id "b", mkTok .dot ".",
    mkTok .id "c", mkTok .eof ""]

/-- C5: the expression parser respects the precedence ladder and folds each
binary level left-associatively — `1 + 2 * 3` parses as `1 + (2 * 3)`,
`1 * 2 + 3` as `(1 * 2) + 3`, `not a and b` as `(not a) and b`, and (same
level, left fold) `1 + 2 + 3` as `(1 + 2) + 3`. -/
theorem c5_precedence_examples :
    (parseExpr 20 (initSt [mkTok .intLit "1", mkTok .plus "+", mkTok .intLit "2",
        mkTok .star "*", mkTok .intLit "3", mkTok .eof ""])).1 =
      .ok (.binary (.literal (.basic .intLit) "1") .plus
        (.binary (.literal (.basic .intLit) "2") .star
          (.literal (.basic .intLit) "3"))) ∧
    (parseExpr 20 (initSt [mkTok .intLit "1", mkTok .star "*", mkTok .intLit "2",
        mkTok .plus "+", mkTok .intLit "3", mkTok .eof ""])).1 =
      .ok (.binary
        (.binary (.literal (.basic .intLit) "1") .star (.literal (.basic .intLit) "2"))
        .plus (.literal (.basic .intLit) "3")) ∧
    (parseExpr 20 (initSt [mkTok .notKw "not", mkTok .id "a", mkTok .andKw "and",
        mkTok .id "b", mkTok .eof ""])).1 =
      .ok (.binary (.unary .notKw (.ident (mkTok .id "a"))) .andKw
        (.ident (mkTok .id "b"))) ∧
    (parseExpr 20 (initSt [mkTok .intLit "1", mkTok .plus "+", mkTok .intLit "2",
        mkTok .plus "+", mkTok .intLit "3", mkTok .eof ""])).1 =
      .ok (.binary
        (.binary (.literal (.basic .intLit) "1") .plus (.literal (.basic .intLit) "2"))
        .plus (.literal (.basic .intLit) "3")) :=
  ⟨rfl, rfl, rfl, rfl⟩

/-- C2 counterexample: on `a.b.c` the expression parser does NOT produce
exactly one FieldAccess pair with the right operand from a plain primary —
the right operand of the produced pair is itself a FieldAccess node, because
parsePrimary dispatches on the dot lookahead back into parseFieldAccess. -/
theorem c2_counterexample_nested :
    (parseExpr 20 abcSt).1 =
      .ok (.fieldAccess (.ident (mkTok .id "a"))
        (.fieldAccess (.ident (mkTok .id "b")) (.ident (mkTok .id "c")))) ∧
    isFieldAccessE
      (.fieldAccess (.ident (mkTok .id "b")) (.ident (mkTok .id "c"))) = true :=
  ⟨rfl, rfl⟩

/-- C2 as amended: `a.b.c` parses into a right-nested chain of FieldAccess
nodes, FieldAccess(a, FieldAccess(b, c)) — the right operand comes from
parsePrimary, which on an identifier followed by a dot recurses back into
field-access parsing, so three-component chains do compose (right-nested)
rather than failing to compose. -/
theorem c2_amended_right_nested_chain :
    parseExpr 20 abcSt =
      (.ok (.fieldAccess (.ident (mkTok .id "a"))
        (.fieldAccess (.ident (mkTok .id "b")) (.ident (mkTok .id "c")))),
       withToks [mkTok .eof ""] abcSt) :=
  rfl

/-- C7: an ellipsis is accepted only as the final element before `)` —
`(a int, ..., b int)` fails with the only-at-end diagnostic and the sentinel
error, while `(a int, b *int, ...)` yields IsVariadic = true with exactly the
two fields in order. -/
theorem c7_variadic_only_at_end :
    parseFunctionParams 20 (initSt [mkTok .openParen "(", mkTok .id "a",
        mkTok .intType "int", mkTok .comma ",", mkTok .dotDotDot "...",
        mkTok .comma ",", mkTok .id "b", mkTok .intType "int",
        mkTok .closeParen ")", mkTok .eof ""]) =
      (.error .sentinel,
        PSt.mk [mkTok .comma ",", mkTok .id "b", mkTok .intType "int",
            mkTok .closeParen ")", mkTok .eof ""]
          [.unexpectedDotDotDot (Pos.mk "test.t" 1 1)] (Scope.mk none [])) ∧
    parseFunctionParams 20 (initSt [mkTok .openParen "(", mkTok .id "a",
        mkTok .intType "int", mkTok .comma ",", mkTok .id "b", mkTok .star "*",
        mkTok .intType "int", mkTok .comma ",", mkTok .dotDotDot "...",
        mkTok .closeParen ")", mkTok .eof ""]) =
      (.ok (FieldList.mk (mkTok .openParen "(")
          [Field.mk (mkTok .id "a") (.basic .intType),
           Field.mk (mkTok .id "b") (.pointer (.basic .intType))]
          true (mkTok .closeParen ")")),
        PSt.mk [mkTok .eof ""] [] (Scope.mk none [])) :=
  ⟨rfl, rfl⟩

/-- A module scope in which the name "f" is already bound. -/
def dupScope : Scope FuncDecl :=
  Scope.mk none [("f",
    FuncDecl.mk (mkTok .id "f")
      (FieldList.mk (mkTok .openParen "(") [] false (mkTok .closeParen ")"))
      (BlockStmtT.mk (Pos.mk "test.t" 1 1) [] (Pos.mk "test.t" 1 1))
      (.basic .voidType))]

/-- C1 (evaluation at the failing input): with "f" already bound in the module
scope, parseFnDecl on `fn f() {}` returns the duplicate-symbol error from
Scope.Insert but reports no function-redeclaration diagnostic.  Scope.Insert
(src/unnamed/part_000:24) builds its error with fmt.Errorf, a fresh value
never identical to the sentinel ast.ERR_SYMBOL_ALREADY_DEFINED_ON_SCOPE that
parseFnDecl compares against with `==` (src/unnamed/part_001:374), so the
diagnostic branch cannot fire. -/
theorem c1_no_redeclaration_diag_emitted :
    (parseFnDecl 20 (PSt.mk [mkTok .fn "fn", mkTok .id "f", mkTok .openParen "(",
        mkTok .closeParen ")", mkTok .openCurly "\x7b", mkTok .closeCurly "\x7d",
        mkTok .eof ""] [] dupScope)).1 = .error (.scopeDuplicate "f") ∧
    (parseFnDecl 20 (PSt.mk [mkTok .fn "fn", mkTok .id "f", mkTok .openParen "(",
        mkTok .closeParen ")", mkTok .openCurly "\x7b", mkTok .closeCurly "\x7d",
        mkTok .eof ""] [] dupScope)).2.diags = [] :=
  ⟨rfl, rfl⟩

theorem parseExprType_consumes :
    ∀ (fuel : Nat) (st : PSt) (ty : ExprType) (st' : PSt),
      parseExprType fuel st = (.ok ty, st') → st'.toks.length < st.toks.length := by
  intro fuel
  induction fuel with
  | zero =>
    intro st ty st' h
    exact absurd h (by simp [parseExprType])
  | succ fuel ih =>
    rintro ⟨toks, dgs, sc⟩ ty st' h
    match toks with
    | [] =>
      simp [parseExprType, peekT, eofTok, TokenKind.IsBasicType] at h
    | tok :: rest =>
      simp only [parseExprType, peekT] at h
      split at h
      · -- star: the inner recursive call decides the result
        split at h
        · exact absurd h (by simp)
        · rename_i ty2 st2 heq
          simp only [Prod.mk.injEq] at h
          obtain ⟨h1, h2⟩ := h
          subst h2
          have hlt := ih _ _ _ heq
          simp only [advanceSt, skipT] at hlt
          simp only [List.length_cons]
          omega
      · -- id: one token consumed
        simp only [Prod.mk.injEq] at h
        obtain ⟨h1, h2⟩ := h
        subst h2
        simp [advanceSt, skipT]
      · -- catch-all: a basic-type kind consumes one token, else an error
        split at h
        · simp only [Prod.mk.injEq] at h
          obtain ⟨h1, h2⟩ := h
          subst h2
          simp [advanceSt, skipT]
        · exact absurd h (by simp)

/-- C9: parseReturnType returns the void basic type without consuming a token
exactly when the next token opens a block or — only for prototypes — is the
statement terminator `;`; in every other case it parses and returns the
written type (when parseExprType succeeds it hands back its result, which has
consumed at least one token, so the unconsuming-void outcome happens in no
other case). -/
theorem c9_return_type (fuel : Nat) (st : PSt) (isPrototype : Bool) :
    (((isPrototype && nextIs .semicolon st.toks) || nextIs .openCurly st.toks) = true →
      parseReturnType (fuel + 1) isPrototype st = (.ok (.basic .voidType), st)) ∧
    (((isPrototype && nextIs .semicolon st.toks) || nextIs .openCurly st.toks) = false →
      ∀ (ty : ExprType) (st' : PSt), parseExprType fuel st = (.ok ty, st') →
        parseReturnType (fuel + 1) isPrototype st = (.ok ty, st') ∧
          st'.toks.length < st.toks.length) := by
  constructor
  · intro hcond
    simp [parseReturnType, hcond]
  · intro hcond ty st' hparse
    refine ⟨?_, parseExprType_consumes fuel st ty st' hparse⟩
    simp [parseReturnType, hcond, hparse]

/-- Witness for C9: a prototype followed by `;` yields void with the state
untouched; a written `i32` return type before `{` is parsed and returned. -/
theorem c9_return_type_witness :
    parseReturnType 20 true (initSt [mkTok .semicolon ";", mkTok .eof ""]) =
      (.ok (.basic .voidType), initSt [mkTok .semicolon ";", mkTok .eof ""]) ∧
    parseReturnType 20 false (initSt [mkTok .i32Type "i32", mkTok .openCurly "\x7b",
        mkTok .eof ""]) =
      (.ok (.basic .i32Type),
        withToks [mkTok .openCurly "\x7b", mkTok .eof ""]
          (initSt [mkTok .i32Type "i32", mkTok .openCurly "\x7b", mkTok .eof ""])) :=
  ⟨(c9_return_type 19 (initSt [mkTok .semicolon ";", mkTok .eof ""]) true).1 rfl,
   ((c9_return_type 19
        (initSt [mkTok .i32Type "i32", mkTok .openCurly "\x7b", mkTok .eof ""]) false).2
      rfl (.basic .i32Type)
      (withToks [mkTok .openCurly "\x7b", mkTok .eof ""]
        (initSt [mkTok .i32Type "i32", mkTok .openCurly "\x7b", mkTok .eof ""])) rfl).1⟩

/-- C8: after the name loop and the expression list, parseVar requires the
expression count to equal the name count (any mismatch is the count-mismatch
error); when they match, a single name yields a VarStmt and several names
yield a MultiVarStmt whose bindings pair names with expressions positionally
(the i-th variable receives the i-th expression and the shared
is-declaration flag). -/
theorem c8_var_count_pairing (fuel : Nat) (st st1 st2 : PSt)
    (vars : List VarStmtT) (isDecl : Bool) (exprs : List Expr)
    (h1 : parseVarLoop fuel [] st = (.ok (vars, isDecl), st1))
    (h2 : parseExprListLoop fuel [.semicolon, .closeParen] [] st1 = (.ok exprs, st2)) :
    (vars.length ≠ exprs.length →
      parseVar (fuel + 1) st =
        (.error (.fresh (toString vars.length ++ " != " ++ toString exprs.length)),
          st2)) ∧
    (∀ v e, vars = [v] → exprs = [e] →
      parseVar (fuel + 1) st = (.ok (.varStmt (setVarValue v e isDecl)), st2)) ∧
    (2 ≤ vars.length → vars.length = exprs.length →
      parseVar (fuel + 1) st =
        (.ok (.multiVar isDecl
          (List.zipWith (fun v e => setVarValue v e isDecl) vars exprs)), st2)) := by
  refine ⟨?_, ?_, ?_⟩
  · intro hne
    simp [parseVar, h1, h2, hne]
  · rintro v e rfl rfl
    simp [parseVar, h1, h2]
  · intro h2le heq
    match vars, exprs with
    | [], _ => simp at h2le
    | [_], _ => simp at h2le
    | a :: b :: vrest, [] => simp at heq
    | a :: b :: vrest, [_] => simp at heq
    | a :: b :: vrest, c :: d :: erest =>
      simp only [parseVar, h1, h2, List.length_cons] at heq ⊢
      rw [if_neg (by omega)]
      simp [List.zipWith]

/-- Witness for C8 at `a, b := 1, 2;`: a MultiVarStmt with two positionally
paired declarations. -/
theorem c8_var_count_pairing_witness :
    parseVar 21 (initSt [mkTok .id "a", mkTok .comma ",", mkTok .id "b",
        mkTok .colonEqual ":=", mkTok .intLit "1", mkTok .comma ",",
        mkTok .intLit "2", mkTok .semicolon ";", mkTok .eof ""]) =
      (.ok (.multiVar true
        [VarStmtT.mk (mkTok .id "a") none (some (.literal (.basic .intLit) "1")) true true,
         VarStmtT.mk (mkTok .id "b") none (some (.literal (.basic .intLit) "2")) true true]),
        PSt.mk [mkTok .semicolon ";", mkTok .eof ""] [] (Scope.mk none [])) :=
  (c8_var_count_pairing 20
      (initSt [mkTok .id "a", mkTok .comma ",", mkTok .id "b",
        mkTok .colonEqual ":=", mkTok .intLit "1", mkTok .comma ",",
        mkTok .intLit "2", mkTok .semicolon ";", mkTok .eof ""])
      (PSt.mk [mkTok .intLit "1", mkTok .comma ",", mkTok .intLit "2",
        mkTok .semicolon ";", mkTok .eof ""] [] (Scope.mk none []))
      (PSt.mk [mkTok .semicolon ";", mkTok .eof ""] [] (Scope.mk none []))
      [VarStmtT.mk (mkTok .id "a") none none true true,
       VarStmtT.mk (mkTok .id "b") none none true true]
      true
      [.literal (.basic .intLit) "1", .literal (.basic .intLit) "2"]
      rfl rfl).2.2 (by simp) rfl

/-- Modelled from the spec: the filesystem as seen by the module tree builder
(directory listing and file reads are external, §6).  A directory entry is a
subdirectory (with a flag saying whether os.ReadDir succeeds on it, and its
entries in listing order) or a file.  The tokenizer is an external
collaborator (§1), so a file is abstracted as the token stream its lexer
yields, or the error lexer.NewFromFilePath reports. -/
inductive FSEntry where
  | subdir (name : String) (readable : Bool) (entries : List FSEntry)
  | file (name : String) (lexed : Except GoErr (List Token))

/-- The source-extension test `filepath.Ext(entry.Name()) == ".t"`
(src/unnamed/part_001:112): the name ends with ".t" (Go's Ext takes the
suffix from the final dot, so it equals ".t" exactly when the name ends with
".t").  Computed over the character list so concrete instances evaluate. -/
def hasTExt (name : String) : Bool :=
  List.isSuffixOf ".t".toList name.toList

/-- ast.File: directory name, path, file scope (chained under the module
scope), and the ordered top-level declarations. -/
structure File where
  dir : String
  path : String
  scope : Scope FuncDecl
  body : List Node

/-- ast.Module: its scope, child modules (one per subdirectory, in listing
order), files (one per source file, in listing order) and the root flag.
buildModuleTree leaves the Name field empty, so it is not recorded. -/
inductive Module where
  | mk (scope : Scope FuncDecl) (modules : List Module) (files : List File)
       (isRoot : Bool)

/-- ast.Program: the root module. -/
structure Program where
  root : Module

/-- parseFile (src/unnamed/part_001:69-87): build the file scope chained
under the module scope, run parseFileNodes over the token stream with the
module scope as insert target, and return the File.  Go mutates the shared
module scope and collector; they are threaded and returned. -/
def parseFileSt (pfuel : Nat) (dirName path : String) (toks : List Token)
    (msc : Scope FuncDecl) (dgs : List Diag) :
    Except GoErr File × Scope FuncDecl × List Diag :=
  let fileScope : Scope FuncDecl := Scope.mk (some msc) []
  match parseFileNodes pfuel (PSt.mk toks dgs msc) with
  | (.error e, st') => (.error e, st'.scope, st'.diags)
  | (.ok nodes, st') => (.ok (File.mk dirName path fileScope nodes), st'.scope, st'.diags)

/-- Prepend an optional element. -/
def consOpt {α : Type} : Option α → List α → List α
  | none, l => l
  | some a, l => a :: l

mutual
/-- The per-entry handler of buildModuleTree (src/unnamed/part_001:105-128):
a subdirectory entry gets a child scope and module and is recursed into (its
os.ReadDir failure surfaces inside processModuleEntries as the
failed-to-read-directory error); an entry with the source extension is lexed
and parsed into a File; any other entry is ignored. -/
def buildEntryStep (pfuel : Nat) (path dirBase : String) (ent : FSEntry)
    (msc : Scope FuncDecl) (dgs : List Diag) :
    Except GoErr (Option Module × Option File × Scope FuncDecl × List Diag) :=
  match ent with
  | .subdir name readable ents =>
    let childScope : Scope FuncDecl := Scope.mk (some msc) []
    if readable = false then
      .error (.fresh ("failed to read directory " ++ path ++ "/" ++ name))
    else
      match buildEntriesM pfuel ents (path ++ "/" ++ name) name childScope dgs with
      | .error e => .error e
      | .ok (ms, fs, csc, dgs1) =>
        .ok (some (Module.mk csc ms fs false), none, msc, dgs1)
  | .file name lexed =>
    if hasTExt name then
      match lexed with
      | .error e => .error e
      | .ok toks =>
        match parseFileSt pfuel dirBase (path ++ "/" ++ name) toks msc dgs with
        | (.error e, _, _) => .error e
        | (.ok f, msc1, dgs1) => .ok (none, some f, msc1, dgs1)
    else .ok (none, none, msc, dgs)

/-- The entry loop of processModuleEntries (src/unnamed/part_001:137-142):
process entries in listing order, aborting on the first handler error. -/
def buildEntriesM (pfuel : Nat) :
    List FSEntry → String → String → Scope FuncDecl → List Diag →
    Except GoErr (List Module × List File × Scope FuncDecl × List Diag)
  | [], _, _, msc, dgs => .ok ([], [], msc, dgs)
  | ent :: rest, path, dirBase, msc, dgs =>
    match buildEntryStep pfuel path dirBase ent msc dgs with
    | .error e => .error e
    | .ok (om, of, msc1, dgs1) =>
      match buildEntriesM pfuel rest path dirBase msc1 dgs1 with
      | .error e => .error e
      | .ok (ms, fs, msc2, dgs2) => .ok (consOpt om ms, consOpt of fs, msc2, dgs2)
end

/-- ParseModuleDir (src/unnamed/part_001:35-46): the universe scope is the
parent-less root module scope; buildModuleTree runs over the root directory
(rootReadable standing for os.ReadDir on the root path); any error is
returned with no Program value. -/
def ParseModuleDirM (pfuel : Nat) (path rootBase : String) (rootReadable : Bool)
    (rootEntries : List FSEntry) : Except GoErr Program :=
  let universeScope : Scope FuncDecl := Scope.mk none []
  if rootReadable = false then
    .error (.fresh ("failed to read directory " ++ path))
  else
    match buildEntriesM pfuel rootEntries path rootBase universeScope [] with
    | .error e => .error e
    | .ok (ms, fs, msc, _) => .ok (Program.mk (Module.mk msc ms fs true))

mutual
/-- A state-independent failure inside one entry: an unreadable directory
anywhere beneath it, or a source-extension file whose lexer fails. -/
def entryHasFailure : FSEntry → Bool
  | .subdir _ readable ents => !readable || entriesHaveFailure ents
  | .file name lexed =>
    hasTExt name &&
      (match lexed with
       | .error _ => true
       | .ok _ => false)

/-- Some entry in the list has a state-independent failure. -/
def entriesHaveFailure : List FSEntry → Bool
  | [] => false
  | ent :: rest => entryHasFailure ent || entriesHaveFailure rest
end

mutual
theorem buildEntryStep_fails (pfuel : Nat) (path dirBase : String)
    (ent : FSEntry) (msc : Scope FuncDecl) (dgs : List Diag)
    (hf : entryHasFailure ent = true) :
    ∃ e, buildEntryStep pfuel path dirBase ent msc dgs = .error e := by
  match ent with
  | .subdir name readable ents =>
    simp only [entryHasFailure, Bool.or_eq_true, Bool.not_eq_true'] at hf
    rcases hf with hr | hents
    · exact ⟨GoErr.fresh ("failed to read directory " ++ path ++ "/" ++ name),
        by simp [buildEntryStep, hr]⟩
    · match hb : readable with
      | false => exact ⟨GoErr.fresh ("failed to read directory " ++ path ++ "/" ++ name),
          by simp [buildEntryStep]⟩
      | true =>
        obtain ⟨e, he⟩ := buildEntriesM_fails pfuel ents (path ++ "/" ++ name) name
          (Scope.mk (some msc) []) dgs hents
        exact ⟨e, by simp [buildEntryStep, he]⟩
  | .file name lexed =>
    simp only [entryHasFailure, Bool.and_eq_true] at hf
    obtain ⟨hext, herr⟩ := hf
    match lexed with
    | .error e => exact ⟨e, by simp [buildEntryStep, hext]⟩
    | .ok _ => simp at herr

theorem buildEntriesM_fails (pfuel : Nat) (ents : List FSEntry)
    (path dirBase : String) (msc : Scope FuncDecl) (dgs : List Diag)
    (hf : entriesHaveFailure ents = true) :
    ∃ e, buildEntriesM pfuel ents path dirBase msc dgs = .error e := by
  match ents with
  | [] => simp [entriesHaveFailure] at hf
  | ent :: rest =>
    simp only [entriesHaveFailure, Bool.or_eq_true] at hf
    match hstep : buildEntryStep pfuel path dirBase ent msc dgs with
    | .error e => exact ⟨e, by simp [buildEntriesM, hstep]⟩
    | .ok (om, of, msc1, dgs1) =>
      rcases hf with hent | hrest
      · obtain ⟨e, he⟩ := buildEntryStep_fails pfuel path dirBase ent msc dgs hent
        rw [hstep] at he
        exact absurd he (by simp)
      · obtain ⟨e, he⟩ := buildEntriesM_fails pfuel rest path dirBase msc1 dgs1 hrest
        exact ⟨e, by simp [buildEntriesM, hstep, he]⟩
end

/-- A per-file parse failure met by the depth-first traversal: after a
successfully processed prefix of the current directory's entries, either the
next entry is a source-extension file whose parse fails in the traversal
state reached (`here`), or it is a readable subdirectory inside which,
recursively, such a failure is met (`below`).  This locates a failing file
anywhere in the module tree, at any depth, together with the module scope
and collected diagnostics in effect when buildModuleTree reaches it. -/
inductive ParseFailureReached (pfuel : Nat) :
    List FSEntry → String → String → Scope FuncDecl → List Diag → GoErr → Prop where
  | here (pre rest : List FSEntry) (name : String) (toks : List Token)
      (path dirBase : String) (msc msc' : Scope FuncDecl) (dgs dgs' : List Diag)
      (ms : List Module) (fs : List File) (e : GoErr) :
      buildEntriesM pfuel pre path dirBase msc dgs = .ok (ms, fs, msc', dgs') →
      hasTExt name = true →
      (parseFileSt pfuel dirBase (path ++ "/" ++ name) toks msc' dgs').1 = .error e →
      ParseFailureReached pfuel (pre ++ .file name (.ok toks) :: rest)
        path dirBase msc dgs e
  | inDir (pre rest ents : List FSEntry) (name : String)
      (path dirBase : String) (msc msc' : Scope FuncDecl) (dgs dgs' : List Diag)
      (ms : List Module) (fs : List File) (e : GoErr) :
      buildEntriesM pfuel pre path dirBase msc dgs = .ok (ms, fs, msc', dgs') →
      ParseFailureReached pfuel ents (path ++ "/" ++ name) name
        (Scope.mk (some msc') []) dgs' e →
      ParseFailureReached pfuel (pre ++ .subdir name true ents :: rest)
        path dirBase msc dgs e

theorem buildEntriesM_prefix_abort (pfuel : Nat) :
    ∀ (pre : List FSEntry) (path dirBase : String) (msc : Scope FuncDecl)
      (dgs : List Diag) (ms : List Module) (fs : List File)
      (msc' : Scope FuncDecl) (dgs' : List Diag)
      (ent : FSEntry) (rest : List FSEntry) (e : GoErr),
      buildEntriesM pfuel pre path dirBase msc dgs = .ok (ms, fs, msc', dgs') →
      buildEntryStep pfuel path dirBase ent msc' dgs' = .error e →
      buildEntriesM pfuel (pre ++ ent :: rest) path dirBase msc dgs = .error e := by
  intro pre
  induction pre with
  | nil =>
    intro path dirBase msc dgs ms fs msc' dgs' ent rest e hpre hstep
    simp only [buildEntriesM] at hpre
    obtain ⟨hms, hfs, hmsc, hdgs⟩ : ms = [] ∧ fs = [] ∧ msc' = msc ∧ dgs' = dgs := by
      simpa [Prod.ext_iff, eq_comm] using hpre
    rw [hmsc, hdgs] at hstep
    simp [List.nil_append, buildEntriesM, hstep]
  | cons ent0 pre ih =>
    intro path dirBase msc dgs ms fs msc' dgs' ent rest e hpre hstep
    simp only [buildEntriesM] at hpre
    match hstep0 : buildEntryStep pfuel path dirBase ent0 msc dgs with
    | .error e2 => rw [hstep0] at hpre; exact absurd hpre (by simp)
    | .ok (om, of, msc1, dgs1) =>
      rw [hstep0] at hpre
      simp only at hpre
      match hrec : buildEntriesM pfuel pre path dirBase msc1 dgs1 with
      | .error e2 => rw [hrec] at hpre; exact absurd hpre (by simp)
      | .ok (ms2, fs2, msc2, dgs2) =>
        rw [hrec] at hpre
        simp only [Except.ok.injEq, Prod.mk.injEq] at hpre
        obtain ⟨_, _, hmsc2, hdgs2⟩ := hpre
        rw [hmsc2, hdgs2] at hrec
        have hrest := ih path dirBase msc1 dgs1 ms2 fs2 msc' dgs' ent rest e
          hrec hstep
        simp [buildEntriesM, hstep0, hrest]

theorem parseFailureReached_aborts (pfuel : Nat) (ents : List FSEntry)
    (path dirBase : String) (msc : Scope FuncDecl) (dgs : List Diag) (e : GoErr)
    (h : ParseFailureReached pfuel ents path dirBase msc dgs e) :
    buildEntriesM pfuel ents path dirBase msc dgs = .error e := by
  induction h with
  | here pre rest name toks path2 dirBase2 msc2 msc' dgs2 dgs' ms fs e2
      hpre hext hparse =>
    refine buildEntriesM_prefix_abort pfuel pre path2 dirBase2 msc2 dgs2 ms fs msc'
      dgs' (.file name (.ok toks)) rest e2 hpre ?_
    simp only [buildEntryStep, hext, if_pos]
    match hps : parseFileSt pfuel dirBase2 (path2 ++ "/" ++ name) toks msc' dgs' with
    | (exc, sc2, dg2) =>
      rw [hps] at hparse
      simp only at hparse
      subst hparse
      simp
  | inDir pre rest ents2 name path2 dirBase2 msc2 msc' dgs2 dgs' ms fs e2
      hpre hinner ih =>
    refine buildEntriesM_prefix_abort pfuel pre path2 dirBase2 msc2 dgs2 ms fs msc'
      dgs' (.subdir name true ents2) rest e2 hpre ?_
    simp [buildEntryStep, ih]

/-- C6: any failure aborts the whole module-tree build, which returns the
error with no Program value (ParseModuleDir's Except result carries either the
error or the finished Program — never a partial tree).  First conjunct: an
unreadable root, an unreadable directory anywhere in the tree, or a
source-extension file whose lexer fails, makes ParseModuleDir return an
error.  Second conjunct: a source-extension file anywhere in the module tree
— at any depth, reached through successfully processed prefixes at each
directory level — whose parse fails in the traversal state that reaches it
makes ParseModuleDir return exactly that parse error, whatever entries
follow at any level. -/
theorem c6_parse_module_dir_aborts :
    (∀ (pfuel : Nat) (path rootBase : String) (rootReadable : Bool)
        (rootEntries : List FSEntry),
      (rootReadable = false ∨ entriesHaveFailure rootEntries = true) →
      ∃ e, ParseModuleDirM pfuel path rootBase rootReadable rootEntries = .error e) ∧
    (∀ (pfuel : Nat) (path rootBase : String) (rootEntries : List FSEntry)
        (e : GoErr),
      ParseFailureReached pfuel rootEntries path rootBase (Scope.mk none []) [] e →
      ParseModuleDirM pfuel path rootBase true rootEntries = .error e) := by
  constructor
  · intro pfuel path rootBase rootReadable rootEntries h
    rcases h with hroot | hents
    · exact ⟨GoErr.fresh ("failed to read directory " ++ path),
        by simp [ParseModuleDirM, hroot]⟩
    · match hb : rootReadable with
      | false => exact ⟨GoErr.fresh ("failed to read directory " ++ path),
          by simp [ParseModuleDirM]⟩
      | true =>
        obtain ⟨e, he⟩ := buildEntriesM_fails pfuel rootEntries path rootBase
          (Scope.mk none []) [] hents
        exact ⟨e, by simp [ParseModuleDirM, he]⟩
  · intro pfuel path rootBase rootEntries e h
    have habort := parseFailureReached_aborts pfuel rootEntries path rootBase
      (Scope.mk none []) [] e h
    simp [ParseModuleDirM, habort]

/-- Witness for C6: an unreadable subdirectory makes the build error, and a
`.t` file that fails to parse (a bare identifier at file scope) one level
down inside a readable subdirectory makes the build return exactly the
sentinel error. -/
theorem c6_parse_module_dir_aborts_witness :
    (∃ e, ParseModuleDirM 5 "r" "r" true [FSEntry.subdir "s" false []] = .error e) ∧
    ParseModuleDirM 5 "r" "r" true
        [FSEntry.subdir "s" true
          [FSEntry.file "m.t" (.ok [mkTok .id "x", mkTok .eof ""])]]
      = .error .sentinel :=
  ⟨(c6_parse_module_dir_aborts.1 5 "r" "r" true [FSEntry.subdir "s" false []]
      (Or.inr rfl)),
   (c6_parse_module_dir_aborts.2 5 "r" "r"
      [FSEntry.subdir "s" true
        [FSEntry.file "m.t" (.ok [mkTok .id "x", mkTok .eof ""])]]
      .sentinel
      (ParseFailureReached.inDir [] []
        [FSEntry.file "m.t" (.ok [mkTok .id "x", mkTok .eof ""])] "s" "r" "r"
        (Scope.mk none []) (Scope.mk none []) [] [] [] [] .sentinel rfl
        (ParseFailureReached.here [] [] "m.t" [mkTok .id "x", mkTok .eof ""]
          ("r" ++ "/" ++ "s") "s"
          (Scope.mk (some (Scope.mk none [])) [])
          (Scope.mk (some (Scope.mk none [])) []) [] [] [] [] .sentinel
          rfl rfl rfl)))⟩

end Telia
